import Mathlib

/-
Verification of the manabuild build orchestrator (czcorpus/manabuild).

The Go sources are shallowly embedded: pure functions become Lean
functions over Int/Nat/String; effectful functions take their
filesystem / process observations as explicit parameters and return
Except/GoResult values; Go maps are modelled as association lists with
unique keys (Go map iteration order is unspecified, the list fixes one
admissible order).
-/

set_option maxHeartbeats 1000000

deriving instance DecidableEq for Except

namespace Manabuild

/-! ## Version model (version.go, src/unnamed/part_003) -/

/-- Version record: `type Version struct { Major, Minor, Patch int; Variant string }`.
Go `int` is modelled as `Int` (64-bit overflow is irrelevant to the
comparisons; parsing bounds are enforced in `atoi`). -/
structure Version where
  Major : Int
  Minor : Int
  Patch : Int
  Variant : String
deriving Repr, DecidableEq

/-- `func (v Version) IsZero() bool` — the zero-sentinel test. -/
def Version.IsZero (v : Version) : Bool :=
  decide (v.Major = 0) && decide (v.Minor = 0) && decide (v.Patch = 0)

/-- `func (v Version) Semver() string` — `fmt.Sprintf("%d.%d.%d", ...)`;
`Int.repr` is the decimal rendering `%d` uses. -/
def Version.Semver (v : Version) : String :=
  Int.repr v.Major ++ "." ++ Int.repr v.Minor ++ "." ++ Int.repr v.Patch

/-- `func (v Version) Ge(other Version) bool`: returns on the first
differing field with `>`, and compares the Patch fields with strict `>`
when Major and Minor agree (so it is a strict lexicographic greater-than,
despite its name). -/
def Version.Ge (v other : Version) : Bool :=
  if v.Major ≠ other.Major then decide (v.Major > other.Major)
  else if v.Minor ≠ other.Minor then decide (v.Minor > other.Minor)
  else decide (v.Patch > other.Patch)

/-- `func (v Version) Eq(other Version) bool` — equality of the numeric
triple, Variant ignored. -/
def Version.Eq (v other : Version) : Bool :=
  decide (v.Major = other.Major) && decide (v.Minor = other.Minor) &&
    decide (v.Patch = other.Patch)

/-- The zero value `Version{}`. -/
def zeroVersion : Version := { Major := 0, Minor := 0, Patch := 0, Variant := "" }

/-! ### strconv.Atoi and string helpers, over `List Char` -/

/-- Decimal digit test, by code point (`'0' ≤ c && c ≤ '9'`). -/
def isDigitChar (c : Char) : Bool := 48 ≤ c.toNat && c.toNat ≤ 57

/-- Value of a digit character. -/
def digitVal (c : Char) : Nat := c.toNat - 48

/-- Decimal value of a digit string (most significant first). -/
def digitsVal (l : List Char) : Nat := l.foldl (fun acc c => acc * 10 + digitVal c) 0

/-- Largest int64, the bound `strconv.Atoi` enforces for positive input. -/
def int64Max : Nat := 9223372036854775807

/-- Absolute value of the smallest int64. -/
def int64MinAbs : Nat := 9223372036854775808

/-- Digit-parsing core of `strconv.Atoi`: after the optional sign the
rest must be a non-empty digit string whose value fits in int64. -/
def atoiCore (orig : List Char) (neg : Bool) (ds : List Char) : Except String Int :=
  if ds = [] ∨ ds.any (fun c => !(isDigitChar c)) then
    .error ("strconv.Atoi: parsing " ++ String.mk orig ++ ": invalid syntax")
  else
    let n := digitsVal ds
    if neg then
      if n ≤ int64MinAbs then .ok (-(n : Int))
      else .error ("strconv.Atoi: parsing " ++ String.mk orig ++ ": value out of range")
    else
      if n ≤ int64Max then .ok (n : Int)
      else .error ("strconv.Atoi: parsing " ++ String.mk orig ++ ": value out of range")

/-- `strconv.Atoi`: optional single leading sign, then decimal digits. -/
def atoi (s : List Char) : Except String Int :=
  match s with
  | [] => .error "strconv.Atoi: parsing : invalid syntax"
  | c :: rest =>
    if c = '+' then atoiCore s false rest
    else if c = '-' then atoiCore s true rest
    else atoiCore s false (c :: rest)

/-- The custom-build suffix `"-cnc"` stripped by `ParseManateeVersion`. -/
def cncSuffix : List Char := ['-', 'c', 'n', 'c']

/-- `strings.HasSuffix(v, "-cnc")`. -/
def hasSuffixCnc (l : List Char) : Bool := l.reverse.take 4 == ['c', 'n', 'c', '-']

/-- `strings.TrimSuffix(v, "-cnc")` — drops one copy of the suffix. -/
def trimSuffixCnc (l : List Char) : List Char :=
  if hasSuffixCnc l then l.take (l.length - 4) else l

/-- `strings.Split(v, ".")` for the one-character separator used here. -/
def splitOnDot : List Char → List (List Char)
  | [] => [[]]
  | c :: rest =>
    match splitOnDot rest with
    | [] => [[]]
    | h :: t => if c = '.' then [] :: h :: t else (c :: h) :: t

/-- Body of `ParseManateeVersion` after the suffix strip: split on `.`,
require 2 or 3 components, `Atoi` each, Patch defaulting to 0.  The
`Variant` field is never assigned (it keeps the Go zero value `""`). -/
def parseVerCore (v : List Char) : Except String Version :=
  match splitOnDot v with
  | [i0, i1] =>
    match atoi i0 with
    | .error e => .error e
    | .ok ma =>
      match atoi i1 with
      | .error e => .error e
      | .ok mi => .ok { Major := ma, Minor := mi, Patch := 0, Variant := "" }
  | [i0, i1, i2] =>
    match atoi i0 with
    | .error e => .error e
    | .ok ma =>
      match atoi i1 with
      | .error e => .error e
      | .ok mi =>
        match atoi i2 with
        | .error e => .error e
        | .ok pa => .ok { Major := ma, Minor := mi, Patch := pa, Variant := "" }
  | _ => .error ("invalid version specifier: " ++ String.mk v)

/-- `func ParseManateeVersion(v string) (Version, error)`. -/
def ParseManateeVersion (s : String) : Except String Version :=
  parseVerCore (trimSuffixCnc s.data)

/-! ## Environment model (env.go, Makefile's process-wrapper part) -/

/-- `type EnvironmentVars map[string]string`, as an association list with
key-unique entries; the list order stands for one admissible Go map
iteration order. -/
abbrev EnvironmentVars : Type := List (String × String)

/-- One `k + "=" + v` entry as produced inside `Export`. -/
def exportEntry (kv : String × String) : String := kv.1 ++ "=" ++ kv.2

/-- `func (ev EnvironmentVars) Export() []string`: starts from
`make([]string, len(ev))` — a slice already holding `len(ev)` empty
strings — and then appends the `k+"="+v` entries to it. -/
def Export (ev : EnvironmentVars) : List String :=
  List.replicate ev.length "" ++ ev.map exportEntry

/-- Store `v` under `k` in the map state: overwrite the entry when the
key is present, otherwise add a new entry (Go `ev[k] = v`). -/
def setKey (ev : EnvironmentVars) (k v : String) : EnvironmentVars :=
  if ev.any (fun kv => kv.1 = k) then
    ev.map (fun kv => if kv.1 = k then (k, v) else kv)
  else ev ++ [(k, v)]

/-- `func (ev EnvironmentVars) UpdateBy(other EnvironmentVars)`: writes
every entry of `other` into the receiver through its map reference.  The
returned list is the receiver's post-state — in Go the receiver itself
is this map afterwards, the call returns nothing. -/
def UpdateBy (ev other : EnvironmentVars) : EnvironmentVars :=
  other.foldl (fun acc kv => setKey acc kv.1 kv.2) ev

/-- Go map lookup `ev[k]` on the association-list model. -/
def lookupEnv (ev : EnvironmentVars) (k : String) : Option String :=
  match ev with
  | [] => none
  | kv :: rest => if kv.1 = k then some kv.2 else lookupEnv rest k

/-- The part of `exec.Cmd` the embedding observes. -/
structure CmdWrapper where
  env : List String
  dir : String
  printIfErr : Bool
deriving Repr, DecidableEq

/-- `func WithEnv(env EnvironmentVars) RunCommandOption` — installs
`env.Export()` as the spawned command's environment (`cmd.Env`). -/
def WithEnv (env : EnvironmentVars) (cmd : CmdWrapper) : CmdWrapper :=
  { cmd with env := Export env }

/-! ## Build-flag derivation (builder.go) -/

/-- `path.Join` for the clean, non-empty paths used here. -/
def pathJoin (a b : String) : String := a ++ "/" ++ b

/-- The threshold constant: `initV2_208` parses `"2.208"` and panics on
error; the fallback is unreachable (see `initV2_208_ok`). -/
def v2_208 : Version :=
  match ParseManateeVersion "2.208" with
  | .ok v => v
  | .error _ => zeroVersion

/-- `deriveBuildFlags` — the version-gated CGO environment computed in
`buildProject` (builder.go lines 146-164): the plain set always holds
`-I<src>` plus `-lmanatee -L<lib>`; when `version.Ge(v2_208)` the set is
extended with `-I` entries for `finlib`, `fsa3` and `hat-trie` and with
the `hat-trie`/`fsa3` link flags. -/
def deriveBuildFlags (version : Version) (manateeSrc manateeLib : String) : EnvironmentVars :=
  let subdirs := ["-I" ++ manateeSrc]
  if version.Ge v2_208 then
    let subdirs := subdirs ++ (["finlib", "fsa3", "hat-trie"].map (fun dir => "-I" ++ pathJoin manateeSrc dir))
    [("CGO_CXXFLAGS", "-std=c++14 -I" ++ manateeSrc ++ "/corp -I" ++ manateeSrc ++ "/concord -I" ++ manateeSrc ++ "/query"),
     ("CGO_CPPFLAGS", String.intercalate " " subdirs),
     ("CGO_LDFLAGS", "-lmanatee -L" ++ manateeLib ++ " -lhat-trie -L" ++ manateeLib ++ " -lfsa3 -L" ++ pathJoin manateeSrc "fsa3/.libs")]
  else
    [("CGO_CXXFLAGS", "-std=c++14 -I" ++ manateeSrc ++ "/corp -I" ++ manateeSrc ++ "/concord -I" ++ manateeSrc ++ "/query"),
     ("CGO_CPPFLAGS", String.intercalate " " subdirs),
     ("CGO_LDFLAGS", "-lmanatee -L" ++ manateeLib)]

/-! ## Version resolution (src/unnamed/part_003, cmd.go) -/

/-- The allow-list `KnownVersions` from cmd.go. -/
def KnownVersions : List String :=
  ["2.167.8", "2.167.10", "2.208", "2.214.1", "2.223.6", "2.225.8"]

/-- `DefaultManateeLibPath` from builder.go. -/
def DefaultManateeLibPath : String := "/usr/local/lib/libmanatee.so"

/-- The `libmanatee.so` path inspected by autodetection:
`path.Join(specPath, "libmanatee.so")` when an override is given. -/
def libmanateePathOf (specPath : String) : String :=
  if specPath = "" then DefaultManateeLibPath else pathJoin specPath "libmanatee.so"

/-- Go's `\s` class as used by the marker pattern. -/
def isSpaceChar (c : Char) : Bool :=
  c = ' ' || c = '\t' || c = '\n' || c = '\r' || c.toNat = 12

/-- The literal part of the marker pattern `open-([^\s]+)`. -/
def openMarker : List Char := ['o', 'p', 'e', 'n', '-']

/-- `VerSrchPtrn.FindStringSubmatch`: the capture group of the leftmost
occurrence of `open-` followed by at least one non-space character, or
`none` when the pattern does not match anywhere. -/
def findVerMatch : List Char → Option (List Char)
  | [] => none
  | c :: rest =>
    if openMarker.isPrefixOf (c :: rest) then
      let cap := ((c :: rest).drop 5).takeWhile (fun ch => !(isSpaceChar ch))
      if cap.isEmpty then findVerMatch rest else some cap
    else findVerMatch rest

/-- Outcome of a Go function that may also panic (a nil-slice index). -/
inductive GoResult (α : Type) where
  | ok : α → GoResult α
  | err : String → GoResult α
  | panic : String → GoResult α
deriving Repr, DecidableEq

/-- Stable insertion of `x` into an ascending list: `x` goes before the
first strictly larger element and after everything else. -/
def insertAscStable (x : Version) : List Version → List Version
  | [] => [x]
  | y :: ys => if Version.Ge y x then x :: y :: ys else y :: insertAscStable x ys

/-- `sort.SliceStable(foundVersions, less)` with
`less(i, j) = foundVersions[j].Ge(foundVersions[i])`: the stable
ascending order under the strict lexicographic comparison. -/
def sortStableAsc (l : List Version) : List Version :=
  l.foldl (fun acc x => insertAscStable x acc) []

/-- Error text of the `/opt/manatee` listing failure (typo kept from the
source). -/
def optScanError (e : String) : String :=
  "no default Manatee found and failed to list manatee versions is /opt/manatee: " ++ e

/-- The filtering loop of `findLatestManateeInOpt`: keep the entry names
that parse as a `Version` and whose canonical string is allow-listed. -/
def collectFound (knownVersions : List String) (names : List String) : List Version :=
  names.foldl (fun acc name =>
    match ParseManateeVersion name with
    | .ok v => if knownVersions.contains v.Semver then acc ++ [v] else acc
    | .error _ => acc) []

/-- `func findLatestManateeInOpt(knownVersions []string) (Version, error)`.
`entries` is the observed `os.ReadDir("/opt/manatee")` result (the entry
names, or the listing error).  Note the no-qualifier branch returns the
zero value together with a nil error. -/
def findLatestManateeInOpt (knownVersions : List String)
    (entries : Except String (List String)) : Except String Version :=
  match entries with
  | .error e => .error (optScanError e)
  | .ok names =>
    let foundVersions := collectFound knownVersions names
    if 0 < foundVersions.length then
      match (sortStableAsc foundVersions).getLast? with
      | some v => .ok v
      | none => .ok zeroVersion
    else .ok zeroVersion

/-- `func AutodetectManateeVersion(specPath string, knownVersions []string)`
(src/unnamed/part_003 lines 101-121).  Observed effects are passed in:
`libPathExists` is `fs.PathExists(libPath)`, `stringsOut` is the
`strings libPath` combined output (or its spawn error), `optEntries` the
`/opt/manatee` listing.  When the marker pattern finds no match,
`FindStringSubmatch` returns a nil slice and the source indexes it as
`srch[1]`, which panics. -/
def AutodetectManateeVersion (specPath : String) (knownVersions : List String)
    (libPathExists : Bool) (stringsOut : Except String String)
    (optEntries : Except String (List String)) : GoResult Version :=
  if libPathExists then
    match stringsOut with
    | .ok out =>
      match findVerMatch out.data with
      | some cap =>
        match ParseManateeVersion (String.mk cap) with
        | .ok v => .ok v
        | .error e => .err e
      | none => .panic "runtime error: index out of range [1] with length 0"
    | .error _ => .err ("failed to run `strings " ++ libmanateePathOf specPath ++ "`")
  else
    match findLatestManateeInOpt knownVersions optEntries with
    | .ok v => .ok v
    | .error e => .err e

/-- The guard in `main` (cmd.go lines 168-176): an autodetection error or
a zero-sentinel result aborts the run (`os.Exit(1)`, modelled as `err`)
before any build step sees the version. -/
def detectVersionOutcome (r : GoResult Version) : GoResult Version :=
  match r with
  | .panic m => .panic m
  | .err e => .err ("Failed to find manatee-open or determine its version: " ++ e)
  | .ok v =>
    if v.IsZero then
      .err "Autodetection has not found any suitable Manatee version. Please select one manually"
    else .ok v

/-! ## Source acquisition (conf.go) -/

/-- Cache directory keyed by the canonical version string. -/
def outDirOf (ver : Version) : String := "/tmp/manatee-open-" ++ ver.Semver

/-- Downloaded-archive path keyed by the canonical version string. -/
def outFileOf (ver : Version) : String := "/tmp/manatee-open-" ++ ver.Semver ++ ".tar.gz"

/-- First mirror URL. -/
def url1 (ver : Version) : String :=
  "https://corpora.fi.muni.cz/noske/src/manatee-open/manatee-open-" ++ ver.Semver ++ ".tar.gz"

/-- Second mirror URL. -/
def url2 (ver : Version) : String :=
  "https://corpora.fi.muni.cz/noske/src/manatee-open/archive/manatee-open-" ++ ver.Semver ++ ".tar.gz"

/-- Third mirror URL. -/
def url3 (ver : Version) : String :=
  "http://corpora.fi.muni.cz/noske/current/src/manatee-open-" ++ ver.Semver ++ ".tar.gz"

/-- Success-range test on the observed HTTP status of a URL. -/
def dlOk (resp : String → Nat) (u : String) : Bool :=
  !(resp u < 200 || 400 ≤ resp u)

/-- `func downloadFile(url, target string) error`: fails outside the
success status range 200..399 (transport errors are modelled as a status
outside the range; local file-write errors are not modelled). -/
def downloadFile (resp : String → Nat) (u : String) : Except String Unit :=
  if dlOk resp u then .ok ()
  else .error ("failed to download " ++ u ++ " with status: " ++ Nat.repr (resp u))

/-- `func unpackArchive(path string) error`; `unpackOk` is whether the
`tar xzf` child succeeded (on failure the archive is also removed, which
the model does not track). -/
def unpackArchive (unpackOk : Bool) (p : String) : Except String Unit :=
  if unpackOk then .ok () else .error ("failed to unpack file " ++ p)

/-- The aggregated acquisition error template `errTpl`. -/
def errTplMsg (e : String) : String :=
  "Failed to download and extract manatee-open: " ++ e ++
    ". Please do this manually and run the script with --manatee-src"

/-- Observable outcome of `downloadManateeSrc`: the mirror URLs attempted
(in order), the archives passed to `unpackArchive`, and the returned
`(string, error)` pair. -/
structure DownloadOutcome where
  attempts : List String
  unpacks : List String
  result : Except String String
deriving Repr, DecidableEq

/-- `func downloadManateeSrc(ver Version) (string, error)` (conf.go lines
132-169).  `isDir` is the observed `fs.IsDir(outDir)`, `archiveExists`
the observed `fs.PathExists(outFile)`, `resp` the HTTP status each URL
would answer, `unpackOk` whether extraction would succeed. -/
def downloadManateeSrc (ver : Version) (isDir : Except String Bool)
    (archiveExists : Bool) (resp : String → Nat) (unpackOk : Bool) : DownloadOutcome :=
  match isDir with
  | .error e =>
    ⟨[], [], .error ("failed to explore directory " ++ outDirOf ver ++ ": " ++ e)⟩
  | .ok true => ⟨[], [], .ok (outDirOf ver)⟩
  | .ok false =>
    let unpackStep (att : List String) : DownloadOutcome :=
      match unpackArchive unpackOk (outFileOf ver) with
      | .ok _ => ⟨att, [outFileOf ver], .ok (outDirOf ver)⟩
      | .error e => ⟨att, [outFileOf ver], .error (errTplMsg e)⟩
    if archiveExists then unpackStep []
    else
      match downloadFile resp (url1 ver) with
      | .ok _ => unpackStep [url1 ver]
      | .error _ =>
        match downloadFile resp (url2 ver) with
        | .ok _ => unpackStep [url1 ver, url2 ver]
        | .error _ =>
          match downloadFile resp (url3 ver) with
          | .ok _ => unpackStep [url1 ver, url2 ver, url3 ver]
          | .error e => ⟨[url1 ver, url2 ver, url3 ver], [], .error (errTplMsg e)⟩

/-- An `/opt/manatee` entry name qualifies when it parses as a `Version`
whose canonical string is in the allow-list. -/
def qualifiesInOpt (kv : List String) (name : String) : Bool :=
  match ParseManateeVersion name with
  | .ok v => kv.contains v.Semver
  | .error _ => false

/-- A network where every URL answers 200. -/
def respAll200 : String → Nat := fun _ => 200

/-- A network where only the third mirror of `ver` answers 200. -/
def respOnlyThird (ver : Version) : String → Nat :=
  fun u => if u = url3 ver then 200 else 404

/-! ## Basic evaluation checks -/

example : ParseManateeVersion "2.208" = .ok ⟨2, 208, 0, ""⟩ := by decide
example : ParseManateeVersion "2.167.10" = .ok ⟨2, 167, 10, ""⟩ := by decide
example : (ParseManateeVersion "2").isOk = false := by decide
example : (ParseManateeVersion "2.x").isOk = false := by decide
example : ParseManateeVersion "2.208-cnc" = .ok ⟨2, 208, 0, ""⟩ := by decide
example : Version.Ge ⟨2, 208, 0, ""⟩ ⟨2, 208, 0, ""⟩ = false := by decide
example : Version.Ge ⟨2, 208, 1, ""⟩ ⟨2, 208, 0, ""⟩ = true := by decide

example : Export [("A", "1"), ("B", "2")] = ["", "", "A=1", "B=2"] := by decide

example :
    findLatestManateeInOpt KnownVersions (.ok ["2.167.8", "2.214.1"]) = .ok ⟨2, 214, 1, ""⟩ := by
  decide

/-! ## Support lemmas -/

lemma initV2_208_ok : ParseManateeVersion "2.208" = .ok v2_208 ∧ v2_208 = ⟨2, 208, 0, ""⟩ := by
  decide

lemma ge_eq_true_iff (v w : Version) :
    Version.Ge v w = true ↔
      (v.Major > w.Major ∨ (v.Major = w.Major ∧ v.Minor > w.Minor) ∨
        (v.Major = w.Major ∧ v.Minor = w.Minor ∧ v.Patch > w.Patch)) := by
  unfold Version.Ge
  split_ifs with h1 h2 <;> simp only [decide_eq_true_eq] <;> omega

lemma veq_eq_true_iff (v w : Version) :
    Version.Eq v w = true ↔ (v.Major = w.Major ∧ v.Minor = w.Minor ∧ v.Patch = w.Patch) := by
  simp [Version.Eq, and_assoc]

/-! ## C1 -/

/-- C1: the claim says the branch on the resolved version is an exact
threshold, with version 2.208.0 itself already receiving the extended
flag set.  The code disagrees at exactly that point: `Version.Ge`
compares the Patch components with a strict `>` when Major and Minor
coincide, so `Ge` of 2.208.0 against the parsed threshold `"2.208"` is
`false` and `buildProject` derives only the plain flags there, while
2.207.x stays plain and 2.208.1 is extended.  This theorem evaluates the
embedded code at the failing input `2.208.0`. -/
theorem c1_buildflags_threshold_branch :
    Version.Ge ⟨2, 207, 99, ""⟩ v2_208 = false ∧
    Version.Ge ⟨2, 208, 0, ""⟩ v2_208 = false ∧
    Version.Ge ⟨2, 208, 1, ""⟩ v2_208 = true ∧
    deriveBuildFlags ⟨2, 208, 0, ""⟩ "/src/m" "/opt/lib" =
      [("CGO_CXXFLAGS", "-std=c++14 -I/src/m/corp -I/src/m/concord -I/src/m/query"),
       ("CGO_CPPFLAGS", "-I/src/m"),
       ("CGO_LDFLAGS", "-lmanatee -L/opt/lib")] ∧
    deriveBuildFlags ⟨2, 208, 1, ""⟩ "/src/m" "/opt/lib" =
      [("CGO_CXXFLAGS", "-std=c++14 -I/src/m/corp -I/src/m/concord -I/src/m/query"),
       ("CGO_CPPFLAGS", "-I/src/m -I/src/m/finlib -I/src/m/fsa3 -I/src/m/hat-trie"),
       ("CGO_LDFLAGS", "-lmanatee -L/opt/lib -lhat-trie -L/opt/lib -lfsa3 -L/src/m/fsa3/.libs")] := by
  decide

/-! ## C4 -/

/-- C4: when the library override is given and the inspected binary's
`strings` output holds no occurrence of `open-` followed by version
text, `FindStringSubmatch` returns a nil slice and the unguarded
`srch[1]` index panics — the function crashes instead of returning an
error value, contradicting the claim.  When the marker is present but
its text does not parse, an error is returned as claimed. -/
theorem c4_autodetect_missing_marker_panics :
    AutodetectManateeVersion "/opt/mylib" KnownVersions true
        (.ok "GCC: (Debian 12.2.0) 12.2.0") (.ok []) =
      .panic "runtime error: index out of range [1] with length 0" ∧
    AutodetectManateeVersion "/opt/mylib" KnownVersions true
        (.ok "version open-abc here") (.ok []) =
      .err "invalid version specifier: abc" := by
  decide

/-! ## C7 -/

/-- C7: when the version-keyed cache directory already exists as a
directory, `downloadManateeSrc` returns it unchanged and performs no
mirror attempt and no extraction, whatever the network or archive state
is — locating the sources is idempotent once the cache is populated. -/
theorem c7_cached_dir_short_circuit (ver : Version) (archiveExists : Bool)
    (resp : String → Nat) (unpackOk : Bool) :
    downloadManateeSrc ver (.ok true) archiveExists resp unpackOk =
      ⟨[], [], .ok (outDirOf ver)⟩ := rfl

/-! ## C9 -/

/-- C9: the code's comparison predicates form a strict total order on
the numeric triple: for all versions exactly one of `b.Ge a` (a < b),
`a.Eq b` (triples equal, Variant ignored) and `a.Ge b` (a > b) holds,
and the strict relation is transitive. -/
theorem c9_compare_strict_total_order (a b c : Version) :
    ((Version.Ge b a = true ∧ Version.Eq a b = false ∧ Version.Ge a b = false) ∨
     (Version.Ge b a = false ∧ Version.Eq a b = true ∧ Version.Ge a b = false) ∨
     (Version.Ge b a = false ∧ Version.Eq a b = false ∧ Version.Ge a b = true)) ∧
    (Version.Ge a b = true → Version.Ge b c = true → Version.Ge a c = true) := by
  constructor
  · simp only [Bool.eq_false_iff, Ne, ge_eq_true_iff, veq_eq_true_iff]
    omega
  · simp only [ge_eq_true_iff]
    omega

/-- Concrete instance of the order theorem: 1.2.3 and 1.2.3-x compare
equal although their variants differ, and the transitivity instance is
discharged at 3.0.0 > 2.208.0 > 2.167.8. -/
theorem c9_compare_strict_total_order_witness :
    (((Version.Ge ⟨1, 2, 3, "x"⟩ ⟨1, 2, 3, ""⟩ = true ∧
        Version.Eq ⟨1, 2, 3, ""⟩ ⟨1, 2, 3, "x"⟩ = false ∧
        Version.Ge ⟨1, 2, 3, ""⟩ ⟨1, 2, 3, "x"⟩ = false) ∨
      (Version.Ge ⟨1, 2, 3, "x"⟩ ⟨1, 2, 3, ""⟩ = false ∧
        Version.Eq ⟨1, 2, 3, ""⟩ ⟨1, 2, 3, "x"⟩ = true ∧
        Version.Ge ⟨1, 2, 3, ""⟩ ⟨1, 2, 3, "x"⟩ = false) ∨
      (Version.Ge ⟨1, 2, 3, "x"⟩ ⟨1, 2, 3, ""⟩ = false ∧
        Version.Eq ⟨1, 2, 3, ""⟩ ⟨1, 2, 3, "x"⟩ = false ∧
        Version.Ge ⟨1, 2, 3, ""⟩ ⟨1, 2, 3, "x"⟩ = true)) ∧
     (Version.Ge ⟨1, 2, 3, ""⟩ ⟨1, 2, 3, "x"⟩ = true →
       Version.Ge ⟨1, 2, 3, "x"⟩ ⟨0, 9, 9, ""⟩ = true →
       Version.Ge ⟨1, 2, 3, ""⟩ ⟨0, 9, 9, ""⟩ = true)) ∧
    (Version.Ge ⟨3, 0, 0, ""⟩ ⟨2, 208, 0, ""⟩ = true ∧
     Version.Ge ⟨2, 208, 0, ""⟩ ⟨2, 167, 8, ""⟩ = true ∧
     Version.Ge ⟨3, 0, 0, ""⟩ ⟨2, 167, 8, ""⟩ = true) :=
  ⟨c9_compare_strict_total_order ⟨1, 2, 3, ""⟩ ⟨1, 2, 3, "x"⟩ ⟨0, 9, 9, ""⟩,
   by decide, by decide,
   (c9_compare_strict_total_order ⟨3, 0, 0, ""⟩ ⟨2, 208, 0, ""⟩ ⟨2, 167, 8, ""⟩).2
     (by decide) (by decide)⟩

/-! ## C2 -/

/-- C2: `Export` of an n-entry map pre-allocates n empty slots with
`make([]string, n)` and then appends the n `KEY=value` strings, so the
returned slice has length 2n, its first n elements are empty strings,
the rest are the entries — and `WithEnv` installs exactly this slice as
the environment of the command it wraps. -/
theorem c2_export_doubles_length (ev : EnvironmentVars) (cmd : CmdWrapper) :
    (Export ev).length = 2 * ev.length ∧
    (Export ev).take ev.length = List.replicate ev.length "" ∧
    (Export ev).drop ev.length = ev.map exportEntry ∧
    (WithEnv ev cmd).env = Export ev := by
  refine ⟨?_, ?_, ?_, rfl⟩
  · simp [Export]
    omega
  · have h := List.take_left (List.replicate ev.length ("" : String)) (ev.map exportEntry)
    rw [List.length_replicate] at h
    rw [Export, h]
  · have h := List.drop_left (List.replicate ev.length ("" : String)) (ev.map exportEntry)
    rw [List.length_replicate] at h
    rw [Export, h]

/-! ## C3 -/

/-- C3 counterexample: the claim requires that merging leaves the base
map unmutated, but `UpdateBy` writes through the receiver — after
`base.UpdateBy(overlay)` the base map's state is the merged map, not its
original value. -/
theorem c3_counterexample :
    UpdateBy [("A", "1")] [("A", "2")] ≠ [("A", "1")] ∧
    UpdateBy [("A", "1")] [("A", "2")] = [("A", "2")] := by decide

lemma lookup_map_overwrite (ev : EnvironmentVars) (k v : String)
    (h : ev.any (fun kv => kv.1 = k) = true) :
    lookupEnv (ev.map (fun kv => if kv.1 = k then (k, v) else kv)) k = some v := by
  induction ev with
  | nil => simp at h
  | cons kv rest ih =>
    by_cases hk : kv.1 = k
    · simp [lookupEnv, hk]
    · have hrest : rest.any (fun kv => kv.1 = k) = true := by
        simp only [List.any_cons, Bool.or_eq_true, decide_eq_true_eq] at h
        rcases h with h | h
        · exact absurd h hk
        · exact h
      simp only [List.map_cons, if_neg hk, lookupEnv, ih hrest]

lemma lookup_map_other (ev : EnvironmentVars) (k v k' : String) (h : k' ≠ k) :
    lookupEnv (ev.map (fun kv => if kv.1 = k then (k, v) else kv)) k' = lookupEnv ev k' := by
  induction ev with
  | nil => rfl
  | cons kv rest ih =>
    by_cases hk : kv.1 = k
    · simp only [List.map_cons, if_pos hk, lookupEnv]
      rw [if_neg (fun hh : k = k' => h hh.symm),
        if_neg (show ¬kv.1 = k' by rw [hk]; exact fun hh => h hh.symm), ih]
    · simp only [List.map_cons, if_neg hk, lookupEnv, ih]

lemma lookup_append_single (ev : EnvironmentVars) (k v k' : String) :
    lookupEnv (ev ++ [(k, v)]) k' =
      if (lookupEnv ev k').isSome then lookupEnv ev k'
      else if k = k' then some v else none := by
  induction ev with
  | nil => simp [lookupEnv]
  | cons kv rest ih =>
    by_cases hk : kv.1 = k'
    · simp [lookupEnv, hk]
    · simp only [List.cons_append, lookupEnv, if_neg hk]
      exact ih

lemma lookup_none_of_not_mem (ev : EnvironmentVars) (k : String)
    (h : k ∉ ev.map Prod.fst) : lookupEnv ev k = none := by
  induction ev with
  | nil => rfl
  | cons kv rest ih =>
    simp only [List.map_cons, List.mem_cons] at h
    push_neg at h
    simp only [lookupEnv, if_neg (fun hh : kv.1 = k => h.1 hh.symm)]
    exact ih h.2

lemma lookup_none_of_not_any (ev : EnvironmentVars) (k : String)
    (h : ¬ev.any (fun kv => kv.1 = k) = true) : lookupEnv ev k = none := by
  refine lookup_none_of_not_mem ev k ?_
  intro hm
  rcases List.mem_map.mp hm with ⟨x, hx, hxk⟩
  exact h (List.any_eq_true.mpr ⟨x, hx, by simp [hxk]⟩)

lemma lookup_setKey_same (ev : EnvironmentVars) (k v : String) :
    lookupEnv (setKey ev k v) k = some v := by
  unfold setKey
  by_cases h : ev.any (fun kv => kv.1 = k) = true
  · rw [if_pos h]
    exact lookup_map_overwrite ev k v h
  · rw [if_neg h, lookup_append_single]
    simp [lookup_none_of_not_any ev k h]

lemma lookup_setKey_other (ev : EnvironmentVars) (k v k' : String) (h : k' ≠ k) :
    lookupEnv (setKey ev k v) k' = lookupEnv ev k' := by
  unfold setKey
  by_cases hany : ev.any (fun kv => kv.1 = k) = true
  · rw [if_pos hany]
    exact lookup_map_other ev k v k' h
  · rw [if_neg hany, lookup_append_single]
    by_cases hs : (lookupEnv ev k').isSome
    · simp [hs]
    · have hnone : lookupEnv ev k' = none := Option.not_isSome_iff_eq_none.mp hs
      simp [hnone]
      exact fun hh : k = k' => h hh.symm

/-- C3 amended: `UpdateBy` produces the right-biased merge — the merged
state maps every key of the overlay to the overlay's value and every
other key of the base to the base's value (the overlay is only read) —
but it is an in-place update: the merged map IS the base map's new
state, as `c3_counterexample` shows, not a fresh map. -/
theorem c3_updateby_amended (base overlay : EnvironmentVars) (k : String)
    (hnd : (overlay.map Prod.fst).Nodup) :
    lookupEnv (UpdateBy base overlay) k =
      if (lookupEnv overlay k).isSome then lookupEnv overlay k
      else lookupEnv base k := by
  induction overlay generalizing base with
  | nil => simp [UpdateBy, lookupEnv]
  | cons kv rest ih =>
    obtain ⟨k0, v0⟩ := kv
    simp only [List.map_cons, List.nodup_cons] at hnd
    have hstep : UpdateBy base ((k0, v0) :: rest) = UpdateBy (setKey base k0 v0) rest := rfl
    rw [hstep, ih (setKey base k0 v0) hnd.2]
    by_cases hk : k0 = k
    · subst hk
      have hrest : lookupEnv rest k0 = none := lookup_none_of_not_mem rest k0 hnd.1
      simp [hrest, lookupEnv, lookup_setKey_same]
    · have hhead : lookupEnv ((k0, v0) :: rest) k = lookupEnv rest k := by
        simp [lookupEnv, hk]
      rw [hhead]
      by_cases hs : (lookupEnv rest k).isSome
      · simp [hs]
      · simp only [hs, if_neg, Bool.false_eq_true, if_false]
        exact lookup_setKey_other base k0 v0 k (fun hh => hk hh.symm)

/-- Concrete instance of the amended merge statement: an overlay value
wins on its own key while an untouched base key keeps the base value. -/
theorem c3_updateby_amended_witness :
    (lookupEnv (UpdateBy [("PATH", "/usr/bin"), ("LANG", "C")] [("LANG", "cs_CZ")]) "LANG" =
      if (lookupEnv [("LANG", "cs_CZ")] "LANG").isSome then lookupEnv [("LANG", "cs_CZ")] "LANG"
      else lookupEnv [("PATH", "/usr/bin"), ("LANG", "C")] "LANG") ∧
    (lookupEnv (UpdateBy [("PATH", "/usr/bin"), ("LANG", "C")] [("LANG", "cs_CZ")]) "PATH" =
      if (lookupEnv [("LANG", "cs_CZ")] "PATH").isSome then lookupEnv [("LANG", "cs_CZ")] "PATH"
      else lookupEnv [("PATH", "/usr/bin"), ("LANG", "C")] "PATH") :=
  ⟨c3_updateby_amended [("PATH", "/usr/bin"), ("LANG", "C")] [("LANG", "cs_CZ")] "LANG"
      (by decide),
   c3_updateby_amended [("PATH", "/usr/bin"), ("LANG", "C")] [("LANG", "cs_CZ")] "PATH"
      (by decide)⟩

/-! ## C5 -/

/-- C5 counterexample: when the `/opt/manatee` scan finds no entry that
both parses and is allow-listed, `findLatestManateeInOpt` does not fail
with an error — it returns the zero sentinel version together with a nil
error, i.e. as a successful result. -/
theorem c5_counterexample :
    findLatestManateeInOpt KnownVersions (.ok ["foo", "1.2.3"]) = .ok zeroVersion ∧
    zeroVersion.IsZero = true := by decide

lemma collectFound_nil_of_no_qualifier (kv : List String) (names : List String)
    (h : ∀ n ∈ names, qualifiesInOpt kv n = false) :
    collectFound kv names = [] := by
  have general : ∀ (ns : List String) (acc : List Version),
      (∀ n ∈ ns, qualifiesInOpt kv n = false) →
      ns.foldl (fun acc name =>
        match ParseManateeVersion name with
        | .ok v => if kv.contains v.Semver then acc ++ [v] else acc
        | .error _ => acc) acc = acc := by
    intro ns
    induction ns with
    | nil => intro acc _; rfl
    | cons n rest ih =>
      intro acc hq
      have hn := hq n (List.mem_cons_self n rest)
      have hrest : ∀ m ∈ rest, qualifiesInOpt kv m = false :=
        fun m hm => hq m (List.mem_cons_of_mem n hm)
      simp only [List.foldl_cons]
      have hone : (match ParseManateeVersion n with
          | .ok v => if kv.contains v.Semver then acc ++ [v] else acc
          | .error _ => acc) = acc := by
        unfold qualifiesInOpt at hn
        cases hp : ParseManateeVersion n with
        | ok v =>
          rw [hp] at hn
          simp at hn
          simp [hn]
        | error e => simp
      rw [hone]
      exact ih acc hrest
  exact general names [] h

/-- C5 amended: when no `/opt/manatee` entry both parses as a `Version`
and has its canonical string in the allow-list, the scan returns the
zero sentinel with a nil error rather than failing; it is the caller in
`main` that recognises the zero sentinel (`IsZero`) and aborts with
"Autodetection has not found any suitable Manatee version", so the zero
version is still never delivered to the rest of the build. -/
theorem c5_scan_zero_amended (kv names : List String) (specPath : String)
    (so : Except String String)
    (h : ∀ n ∈ names, qualifiesInOpt kv n = false) :
    findLatestManateeInOpt kv (.ok names) = .ok zeroVersion ∧
    detectVersionOutcome (AutodetectManateeVersion specPath kv false so (.ok names)) =
      .err "Autodetection has not found any suitable Manatee version. Please select one manually" := by
  have hscan : findLatestManateeInOpt kv (.ok names) = .ok zeroVersion := by
    simp only [findLatestManateeInOpt, collectFound_nil_of_no_qualifier kv names h]
    rfl
  refine ⟨hscan, ?_⟩
  simp only [AutodetectManateeVersion]
  rw [if_neg (show ¬(false = true) by simp), hscan]
  rfl

/-- Concrete instance of the amended C5 statement at an `/opt/manatee`
listing holding one junk entry and one non-allow-listed version. -/
theorem c5_scan_zero_amended_witness :
    findLatestManateeInOpt KnownVersions (.ok ["9.9.9"]) = .ok zeroVersion ∧
    detectVersionOutcome
        (AutodetectManateeVersion "" KnownVersions false (.ok "") (.ok ["9.9.9"])) =
      .err "Autodetection has not found any suitable Manatee version. Please select one manually" :=
  c5_scan_zero_amended KnownVersions ["9.9.9"] "" (.ok "") (by decide)

/-! ## C6 -/

/-- C6 counterexample: the claim's "if and only if every mirror fails"
is refuted — here the very first mirror answers 200 (so not every
mirror failed, and only one attempt is made), yet because extraction of
the downloaded archive fails the function still returns an error
directing the operator to the `--manatee-src` manual-override flag. -/
theorem c6_counterexample :
    dlOk respAll200 (url1 ⟨2, 208, 0, ""⟩) = true ∧
    downloadManateeSrc ⟨2, 208, 0, ""⟩ (.ok false) false respAll200 false =
      ⟨["https://corpora.fi.muni.cz/noske/src/manatee-open/manatee-open-2.208.0.tar.gz"],
       ["/tmp/manatee-open-2.208.0.tar.gz"],
       .error "Failed to download and extract manatee-open: failed to unpack file /tmp/manatee-open-2.208.0.tar.gz. Please do this manually and run the script with --manatee-src"⟩ := by
  decide

/-- C6 amended: with no cached source directory and no cached archive,
the mirrors are attempted in their fixed order and the first
success-range response stops the sequence (later mirrors are never
attempted); when extraction succeeds the first successful mirror's
download is used.  If every mirror fails, the function returns the
aggregated error naming the `--manatee-src` manual-override flag — but
that remediation text is not exclusive to mirror exhaustion (see the
counterexample), so the claim's "only if" direction is dropped. -/
theorem c6_mirror_fallback_amended (ver : Version) (resp : String → Nat) (unpackOk : Bool) :
    (dlOk resp (url1 ver) = true →
      (downloadManateeSrc ver (.ok false) false resp unpackOk).attempts = [url1 ver] ∧
      (unpackOk = true →
        (downloadManateeSrc ver (.ok false) false resp unpackOk).result = .ok (outDirOf ver))) ∧
    (dlOk resp (url1 ver) = false → dlOk resp (url2 ver) = true →
      (downloadManateeSrc ver (.ok false) false resp unpackOk).attempts = [url1 ver, url2 ver] ∧
      (unpackOk = true →
        (downloadManateeSrc ver (.ok false) false resp unpackOk).result = .ok (outDirOf ver))) ∧
    (dlOk resp (url1 ver) = false → dlOk resp (url2 ver) = false → dlOk resp (url3 ver) = true →
      (downloadManateeSrc ver (.ok false) false resp unpackOk).attempts =
        [url1 ver, url2 ver, url3 ver] ∧
      (unpackOk = true →
        (downloadManateeSrc ver (.ok false) false resp unpackOk).result = .ok (outDirOf ver))) ∧
    (dlOk resp (url1 ver) = false → dlOk resp (url2 ver) = false → dlOk resp (url3 ver) = false →
      (downloadManateeSrc ver (.ok false) false resp unpackOk).attempts =
        [url1 ver, url2 ver, url3 ver] ∧
      (downloadManateeSrc ver (.ok false) false resp unpackOk).result =
        .error (errTplMsg ("failed to download " ++ url3 ver ++ " with status: " ++
          Nat.repr (resp (url3 ver))))) := by
  refine ⟨?_, ?_, ?_, ?_⟩
  · intro h1
    constructor
    · cases unpackOk <;>
        simp [downloadManateeSrc, downloadFile, unpackArchive, h1]
    · intro hu
      subst hu
      simp [downloadManateeSrc, downloadFile, unpackArchive, h1]
  · intro h1 h2
    constructor
    · cases unpackOk <;>
        simp [downloadManateeSrc, downloadFile, unpackArchive, h1, h2]
    · intro hu
      subst hu
      simp [downloadManateeSrc, downloadFile, unpackArchive, h1, h2]
  · intro h1 h2 h3
    constructor
    · cases unpackOk <;>
        simp [downloadManateeSrc, downloadFile, unpackArchive, h1, h2, h3]
    · intro hu
      subst hu
      simp [downloadManateeSrc, downloadFile, unpackArchive, h1, h2, h3]
  · intro h1 h2 h3
    constructor <;>
      simp [downloadManateeSrc, downloadFile, unpackArchive, h1, h2, h3]

/-- Concrete instance of the amended mirror-fallback statement: only the
third mirror answers a success status, acquisition succeeds through it
after attempting all three in order. -/
theorem c6_mirror_fallback_amended_witness :
    (downloadManateeSrc ⟨2, 214, 1, ""⟩ (.ok false) false
        (respOnlyThird ⟨2, 214, 1, ""⟩) true).attempts =
      [url1 ⟨2, 214, 1, ""⟩, url2 ⟨2, 214, 1, ""⟩, url3 ⟨2, 214, 1, ""⟩] ∧
    (downloadManateeSrc ⟨2, 214, 1, ""⟩ (.ok false) false
        (respOnlyThird ⟨2, 214, 1, ""⟩) true).result = .ok (outDirOf ⟨2, 214, 1, ""⟩) := by
  have h := (c6_mirror_fallback_amended ⟨2, 214, 1, ""⟩
      (respOnlyThird ⟨2, 214, 1, ""⟩) true).2.2.1 (by decide) (by decide) (by decide)
  exact ⟨h.1, h.2 rfl⟩

/-! ## Parsing lemmas for C8 and C10 -/

lemma splitOnDot_ne_nil (l : List Char) : splitOnDot l ≠ [] := by
  cases l with
  | nil => simp [splitOnDot]
  | cons c rest =>
    simp only [splitOnDot]
    cases h : splitOnDot rest with
    | nil => simp
    | cons h0 t => by_cases hc : c = '.' <;> simp [hc]

lemma splitOnDot_singleton (l : List Char) (h : '.' ∉ l) : splitOnDot l = [l] := by
  induction l with
  | nil => rfl
  | cons c rest ih =>
    have hc : c ≠ '.' := fun hh => h (hh ▸ List.mem_cons_self c rest)
    have hrest : '.' ∉ rest := fun hm => h (List.mem_cons_of_mem c hm)
    simp only [splitOnDot, ih hrest]
    simp [hc]

lemma splitOnDot_append (a rest : List Char) (h : '.' ∉ a) :
    splitOnDot (a ++ '.' :: rest) = a :: splitOnDot rest := by
  induction a with
  | nil =>
    simp only [List.nil_append, splitOnDot]
    cases hs : splitOnDot rest with
    | nil => exact absurd hs (splitOnDot_ne_nil rest)
    | cons h0 t => simp
  | cons c a' ih =>
    have hc : c ≠ '.' := fun hh => h (hh ▸ List.mem_cons_self c a')
    have ha' : '.' ∉ a' := fun hm => h (List.mem_cons_of_mem c hm)
    rw [List.cons_append]
    simp only [splitOnDot]
    rw [show splitOnDot (a' ++ '.' :: rest) = a' :: splitOnDot rest from ih ha']
    simp [hc]

lemma trimSuffixCnc_id (l : List Char) (h : hasSuffixCnc l = false) :
    trimSuffixCnc l = l := by
  simp [trimSuffixCnc, h]

lemma trimSuffixCnc_append (s : List Char) : trimSuffixCnc (s ++ cncSuffix) = s := by
  have e1 : (s ++ cncSuffix).reverse.take 4 = ['c', 'n', 'c', '-'] := by
    rw [show (s ++ cncSuffix).reverse = ['c', 'n', 'c', '-'] ++ s.reverse by
      simp [cncSuffix]]
    exact List.take_left ['c', 'n', 'c', '-'] s.reverse
  have hsuf : hasSuffixCnc (s ++ cncSuffix) = true := by
    rw [hasSuffixCnc, e1]
    rfl
  have hlen : (s ++ cncSuffix).length - 4 = s.length := by
    simp [cncSuffix]
  rw [trimSuffixCnc, if_pos hsuf, hlen]
  exact List.take_left s cncSuffix

/-! ## C8 -/

/-- C8: a numeric component is one `strconv.Atoi` accepts (decimal
digits with an optional sign, in int64 range); the components are the
decomposition after the `-cnc` strip, which happens before the split
(hence the no-suffix hypotheses — all-digit inputs satisfy them).  For
every 2- or 3-component input of dot-separated numeric components,
parsing succeeds and the canonical string is the normalized 3-component
`major.minor.patch` rendering with Patch defaulting to 0 for 2-component
input; a component `Atoi` rejects makes the parse return an error. -/
theorem c8_parse_canonical_roundtrip (c1 c2 c3 : List Char) (n1 n2 n3 : Int)
    (h1 : '.' ∉ c1) (h2 : '.' ∉ c2) (h3 : '.' ∉ c3)
    (hs2 : hasSuffixCnc (c1 ++ '.' :: c2) = false)
    (hs3 : hasSuffixCnc (c1 ++ '.' :: (c2 ++ '.' :: c3)) = false) :
    (atoi c1 = .ok n1 → atoi c2 = .ok n2 →
      ParseManateeVersion (String.mk (c1 ++ '.' :: c2)) = .ok ⟨n1, n2, 0, ""⟩ ∧
      Version.Semver ⟨n1, n2, 0, ""⟩ = Int.repr n1 ++ "." ++ Int.repr n2 ++ "." ++ "0") ∧
    (atoi c1 = .ok n1 → atoi c2 = .ok n2 → atoi c3 = .ok n3 →
      ParseManateeVersion (String.mk (c1 ++ '.' :: (c2 ++ '.' :: c3))) = .ok ⟨n1, n2, n3, ""⟩ ∧
      Version.Semver ⟨n1, n2, n3, ""⟩ =
        Int.repr n1 ++ "." ++ Int.repr n2 ++ "." ++ Int.repr n3) ∧
    ((atoi c1).isOk = false ∨ (atoi c2).isOk = false →
      (ParseManateeVersion (String.mk (c1 ++ '.' :: c2))).isOk = false) ∧
    ((atoi c1).isOk = false ∨ (atoi c2).isOk = false ∨ (atoi c3).isOk = false →
      (ParseManateeVersion (String.mk (c1 ++ '.' :: (c2 ++ '.' :: c3)))).isOk = false) := by
  have hsplit2 : splitOnDot (c1 ++ '.' :: c2) = [c1, c2] := by
    rw [splitOnDot_append c1 c2 h1, splitOnDot_singleton c2 h2]
  have hsplit3 : splitOnDot (c1 ++ '.' :: (c2 ++ '.' :: c3)) = [c1, c2, c3] := by
    rw [splitOnDot_append c1 (c2 ++ '.' :: c3) h1, splitOnDot_append c2 c3 h2,
      splitOnDot_singleton c3 h3]
  have hdata2 : (String.mk (c1 ++ '.' :: c2)).data = c1 ++ '.' :: c2 := rfl
  have hdata3 :
      (String.mk (c1 ++ '.' :: (c2 ++ '.' :: c3))).data = c1 ++ '.' :: (c2 ++ '.' :: c3) := rfl
  have hp2 : ParseManateeVersion (String.mk (c1 ++ '.' :: c2)) =
      (match atoi c1 with
        | .error e => .error e
        | .ok ma =>
          match atoi c2 with
          | .error e => .error e
          | .ok mi => .ok { Major := ma, Minor := mi, Patch := 0, Variant := "" }) := by
    rw [ParseManateeVersion, hdata2, trimSuffixCnc_id _ hs2, parseVerCore, hsplit2]
  have hp3 : ParseManateeVersion (String.mk (c1 ++ '.' :: (c2 ++ '.' :: c3))) =
      (match atoi c1 with
        | .error e => .error e
        | .ok ma =>
          match atoi c2 with
          | .error e => .error e
          | .ok mi =>
            match atoi c3 with
            | .error e => .error e
            | .ok pa => .ok { Major := ma, Minor := mi, Patch := pa, Variant := "" }) := by
    rw [ParseManateeVersion, hdata3, trimSuffixCnc_id _ hs3, parseVerCore, hsplit3]
  refine ⟨?_, ?_, ?_, ?_⟩
  · intro ha1 ha2
    rw [hp2, ha1, ha2]
    refine ⟨rfl, ?_⟩
    show Int.repr n1 ++ "." ++ Int.repr n2 ++ "." ++ Int.repr 0 =
      Int.repr n1 ++ "." ++ Int.repr n2 ++ "." ++ "0"
    rfl
  · intro ha1 ha2 ha3
    rw [hp3, ha1, ha2, ha3]
    exact ⟨rfl, rfl⟩
  · intro herr
    rw [hp2]
    rcases herr with he | he
    · cases ha : atoi c1 with
      | ok v => rw [ha] at he; exact Bool.noConfusion he
      | error e => rfl
    · cases ha : atoi c2 with
      | ok v => rw [ha] at he; exact Bool.noConfusion he
      | error e => cases hb : atoi c1 <;> rfl
  · intro herr
    rw [hp3]
    rcases herr with he | he | he
    · cases ha : atoi c1 with
      | ok v => rw [ha] at he; exact Bool.noConfusion he
      | error e => rfl
    · cases ha : atoi c2 with
      | ok v => rw [ha] at he; exact Bool.noConfusion he
      | error e => cases hb : atoi c1 <;> rfl
    · cases ha : atoi c3 with
      | ok v => rw [ha] at he; exact Bool.noConfusion he
      | error e => cases hb : atoi c1 <;> cases hc : atoi c2 <;> rfl

/-- Concrete instances of the round-trip statement: `"2.208"` parses and
canonicalizes to `"2.208.0"` (Patch defaulted), `"2.208.1"` round-trips
unchanged, and the non-numeric component in `"2.20x"` is rejected. -/
theorem c8_parse_canonical_roundtrip_witness :
    (ParseManateeVersion "2.208" = .ok ⟨2, 208, 0, ""⟩ ∧
      Version.Semver ⟨2, 208, 0, ""⟩ = "2.208.0") ∧
    (ParseManateeVersion "2.208.1" = .ok ⟨2, 208, 1, ""⟩ ∧
      Version.Semver ⟨2, 208, 1, ""⟩ = "2.208.1") ∧
    (ParseManateeVersion "2.20x").isOk = false := by
  have h := c8_parse_canonical_roundtrip ['2'] ['2', '0', '8'] ['1'] 2 208 1
    (by decide) (by decide) (by decide) (by decide) (by decide)
  have herr := c8_parse_canonical_roundtrip ['2'] ['2', '0', 'x'] ['1'] 0 0 0
    (by decide) (by decide) (by decide) (by decide) (by decide)
  refine ⟨?_, ?_, ?_⟩
  · have h2 := h.1 (by decide) (by decide)
    exact ⟨h2.1, by decide⟩
  · have h3 := h.2.1 (by decide) (by decide) (by decide)
    exact ⟨h3.1, by decide⟩
  · exact herr.2.2.1 (Or.inr (by decide))

/-! ## C10 -/

/-- C10 counterexample: `"2.208-cnc"` is parsed with the suffix stripped,
but the resulting `Version` carries an empty `Variant` — the stripped
suffix is not recorded, so it is not recoverable from the parsed value. -/
theorem c10_counterexample :
    ParseManateeVersion "2.208-cnc" = .ok { Major := 2, Minor := 208, Patch := 0, Variant := "" } ∧
    ("" : String) ≠ "cnc" ∧ ("" : String) ≠ "-cnc" := by decide

lemma parseVerCore_variant_empty (s : List Char) (v : Version)
    (h : parseVerCore s = .ok v) : v.Variant = "" := by
  unfold parseVerCore at h
  repeat' split at h
  all_goals simp_all
  all_goals (cases h; rfl)

/-- C10 amended: parse strips one trailing `-cnc` suffix before
splitting (an input ending in the suffix is parsed exactly as its
prefix), but the suffix is not recorded: the `Variant` field of every
parse result is the empty string, so the variant is not recoverable. -/
theorem c10_variant_not_recorded_amended (s : List Char) (v : Version) :
    ParseManateeVersion (String.mk (s ++ cncSuffix)) = parseVerCore s ∧
    (parseVerCore s = .ok v → v.Variant = "") := by
  constructor
  · show parseVerCore (trimSuffixCnc (String.mk (s ++ cncSuffix)).data) = parseVerCore s
    rw [show (String.mk (s ++ cncSuffix)).data = s ++ cncSuffix from rfl, trimSuffixCnc_append]
  · exact parseVerCore_variant_empty s v

/-- Concrete instance of the amended C10 statement at `"2.208-cnc"`. -/
theorem c10_variant_not_recorded_amended_witness :
    ParseManateeVersion (String.mk ("2.208".data ++ cncSuffix)) = parseVerCore "2.208".data ∧
    Version.Variant { Major := 2, Minor := 208, Patch := 0, Variant := "" } = "" :=
  ⟨(c10_variant_not_recorded_amended "2.208".data ⟨2, 208, 0, ""⟩).1,
   (c10_variant_not_recorded_amended "2.208".data ⟨2, 208, 0, ""⟩).2 (by decide)⟩

end Manabuild
